import Mathlib

/-!
Verification development for the offline-first write-synchronization engine
(`src/sync.js`) and its local-storage layer (`Store` constructor and the
WebSQL table helpers).  The definitions below are a shallow embedding of the
source: JavaScript objects become structures carrying exactly the fields the
code reads, the remote backend becomes an explicit oracle, and the local
stores become association lists that the push pipeline updates through an
explicit list of operations.
-/

namespace JsSdk

/-- HTTP verbs used by the engine (`HttpMethod` in the source).  `GET` also
stands in for any value of `state.method` that the push dispatcher does not
recognize (its dispatch only handles `DELETE`, `POST` and `PUT`). -/
inductive HttpMethod where
  | GET
  | POST
  | PUT
  | DELETE
deriving DecidableEq, Repr

/-- An entity: a JSON object of which the engine reads the `_id` attribute,
the truthiness of `_kmd.local`, and otherwise treats opaquely (`payload`
stands for all remaining fields).  `kmd = none` models an absent `_kmd`
envelope; `kmd = some b` models a present envelope whose `local` member has
truthiness `b` (after `delete entity._kmd.local` the member is absent, hence
falsy, modelled as `some false`). -/
structure Entity where
  _id : Option String
  kmd : Option Bool
  payload : Nat
deriving DecidableEq, Repr

/-- One row of the sync journal (the object built at enqueue time in
`createSaveOperation` / `createDeleteOperation`):
`{ key, entityId, collection, state: { method }, entity }`. -/
structure SyncRecord where
  key : Nat
  entityId : String
  collection : String
  method : HttpMethod
  entity : Entity
deriving DecidableEq, Repr

/-- Classification of a remote failure, standing for the `instanceof`
tests in the source.  `other` covers every error that is neither a
`NotFoundError` nor an `InsufficientCredentialsError` (network, 5xx,
other 4xx). -/
inductive ErrKind where
  | notFound
  | insufficientCredentials
  | other
deriving DecidableEq, Repr

/-- Outcome of one remote HTTP call: a response document or an error. -/
inductive RemoteResult where
  | ok (doc : Entity)
  | err (e : ErrKind)
deriving DecidableEq, Repr

/-- Error carried in a per-record push result: either a remote error or the
`SyncError` produced for an unrecognized method. -/
inductive PushError where
  | remote (e : ErrKind)
  | methodNotRecognized
deriving DecidableEq, Repr

/-- The per-record result object returned by `push`
(`{ _id: originalId, entity, error? }`). -/
structure SyncResult where
  _id : Option String
  entity : Entity
  error : Option PushError
deriving DecidableEq, Repr

/-- A remote HTTP request issued by the push pipeline, recorded so that
theorems can talk about which network calls were dispatched.  `id` is the
trailing path segment (absent for a collection-level POST), `body` the
request body. -/
structure RemoteReq where
  method : HttpMethod
  collection : String
  id : Option String
  body : Option Entity
deriving DecidableEq, Repr

/-- A write against the local data collections (the `LocalRequest` PUT and
DELETE calls that the push pipeline performs against
`/<ns>/<app>/<collection>/<id>`). -/
inductive LocalOp where
  | put (collection : String) (id : Option String) (doc : Entity)
  | del (collection : String) (id : Option String)
deriving DecidableEq, Repr

/-- Modelled from the spec: `Metadata.isLocal` (the `Metadata` class of
`src/metadata.js` is not among the sources).  Spec 4.F:
`isLocal(entity) := entity._kmd?.local` is truthy. -/
def metadataIsLocal (e : Entity) : Bool :=
  match e.kmd with
  | some b => b
  | none => false

/-- The in-place stripping performed on a locally created entity before the
POST: `delete entity._id; delete entity._kmd.local` (sync.js lines 404-405).
Deleting a property makes it absent, hence falsy. -/
def stripLocal (e : Entity) : Entity :=
  { e with _id := none, kmd := e.kmd.map (fun _ => false) }

/-- Everything one record's trip through the dispatcher produces: the result
object collected into the return value of `push`, the record pushed onto
`failedSyncEntities` (if any), the local-store writes performed, and the
remote requests issued. -/
structure SyncStep where
  result : SyncResult
  reinstated : Option SyncRecord
  localOps : List LocalOp
  remoteReqs : List RemoteReq
deriving DecidableEq, Repr

/-- One record's trip through the dispatcher (the `map` callback of
`batchSync`, sync.js lines 314-509).  `net` is the outcome of the primary
remote call for this record, `repairResult` the outcome of the repair GET
(consulted only when that GET is issued).  A failure of the local PUT inside
repair is swallowed by the source just like a failed GET; the model folds
both into `repairResult`. -/
def syncOne (r : SyncRecord) (net : RemoteResult) (repairResult : RemoteResult) : SyncStep :=
  let collection := r.collection
  let entity := r.entity
  let originalId := entity._id
  match r.method with
  | HttpMethod.DELETE =>
    let deleteReq : RemoteReq := ⟨HttpMethod.DELETE, collection, originalId, none⟩
    match net with
    | RemoteResult.ok _ =>
      ⟨⟨originalId, entity, none⟩, none, [], [deleteReq]⟩
    | RemoteResult.err e =>
      -- sync.js line 339, kept exactly as written:
      -- if (!(error instanceof NotFoundError) || !(error instanceof InsufficientCredentialsError))
      let reinst :=
        if (!(e = ErrKind.notFound)) || (!(e = ErrKind.insufficientCredentials)) then
          some r
        else
          none
      if e = ErrKind.insufficientCredentials then
        -- repair: GET the entity from the network, PUT the response locally,
        -- swallow any error (lines 345-376).  No isLocal check in this branch.
        let getReq : RemoteReq := ⟨HttpMethod.GET, collection, originalId, none⟩
        let ops :=
          match repairResult with
          | RemoteResult.ok doc => [LocalOp.put collection originalId doc]
          | RemoteResult.err _ => []
        ⟨⟨originalId, entity, some (PushError.remote e)⟩, reinst, ops, [deleteReq, getReq]⟩
      else
        ⟨⟨originalId, entity, some (PushError.remote e)⟩, reinst, [], [deleteReq]⟩
  | HttpMethod.POST | HttpMethod.PUT =>
    let isLoc := metadataIsLocal entity
    -- the strip is an in-place mutation of the snapshot shared with the
    -- sync record, so both the dispatched body and the record carry it
    let entity2 := if isLoc then stripLocal entity else entity
    let req : RemoteReq :=
      if isLoc then
        ⟨HttpMethod.POST, collection, none, some entity2⟩
      else
        ⟨HttpMethod.PUT, collection, originalId, some entity2⟩
    match net with
    | RemoteResult.ok respDoc =>
      -- save the network response locally under the id it carries, then
      -- delete the original local-id row when the entity was local
      let ops :=
        [LocalOp.put collection respDoc._id respDoc] ++
          (if isLoc then [LocalOp.del collection originalId] else [])
      ⟨⟨originalId, respDoc, none⟩, none, ops, [req]⟩
    | RemoteResult.err e =>
      let reinst :=
        if !(e = ErrKind.insufficientCredentials) then
          some { r with entity := entity2 }
        else
          none
      if e = ErrKind.insufficientCredentials then
        if isLoc then
          -- line 463: repair only attempted when the entity is not local
          ⟨⟨originalId, entity2, some (PushError.remote e)⟩, reinst, [], [req]⟩
        else
          let getReq : RemoteReq := ⟨HttpMethod.GET, collection, originalId, none⟩
          let ops :=
            match repairResult with
            | RemoteResult.ok doc => [LocalOp.put collection originalId doc]
            | RemoteResult.err _ => []
          ⟨⟨originalId, entity2, some (PushError.remote e)⟩, reinst, ops, [req, getReq]⟩
      else
        ⟨⟨originalId, entity2, some (PushError.remote e)⟩, reinst, [], [req]⟩
  | HttpMethod.GET =>
    -- unrecognized method: record-level SyncError, nothing dispatched,
    -- nothing reinstated (lines 504-508)
    ⟨⟨originalId, entity, some PushError.methodNotRecognized⟩, none, [], []⟩

/-! ## The coalescer

`orderBy(syncEntities, 'key', ['desc'])` is a stable descending sort by
`key`; we embed it as a stable insertion sort.  `sortedUniqBy(_, 'entityId')`
keeps an element exactly when its `entityId` differs from the last kept
element's — it removes only adjacent duplicates. -/

/-- Stable insertion of one record into a list sorted descending by `key`:
the inserted record goes in front of the first element whose key it is
greater than or equal to, so earlier-listed records with equal keys stay
first (lodash `orderBy` is a stable sort). -/
def insertKeyDesc (r : SyncRecord) : List SyncRecord → List SyncRecord
  | [] => [r]
  | y :: ys => if y.key ≤ r.key then r :: y :: ys else y :: insertKeyDesc r ys

/-- `orderBy(l, 'key', ['desc'])`: stable descending sort by `key`. -/
def orderByKeyDesc (l : List SyncRecord) : List SyncRecord :=
  l.foldr insertKeyDesc []

/-- Tail of lodash `sortedUniqBy`: keep `y` exactly when its `entityId`
differs from the `entityId` of the last kept element. -/
def sortedUniqTail (last : SyncRecord) : List SyncRecord → List SyncRecord
  | [] => []
  | y :: ys =>
    if y.entityId = last.entityId then
      sortedUniqTail last ys
    else
      y :: sortedUniqTail y ys

/-- `sortedUniqBy(l, 'entityId')`: adjacent deduplication by `entityId`. -/
def sortedUniqByEntityId : List SyncRecord → List SyncRecord
  | [] => []
  | x :: xs => x :: sortedUniqTail x xs

/-- The two-line filter applied by both `count` and `push`
(sync.js lines 74-75 and 303-304). -/
def coalesce (l : List SyncRecord) : List SyncRecord :=
  sortedUniqByEntityId (orderByKeyDesc l)

/-- `Sync.count(query)` (sync.js lines 54-79): fetch the journal rows
matching the query, apply the coalescing filter, return the length.  The
query is embedded as the predicate the local store evaluates it to. -/
def countPending (journal : List SyncRecord) (q : SyncRecord → Bool) : Nat :=
  (coalesce (journal.filter q)).length

/-! ## The push pipeline -/

/-- Modelled from the spec: the journal drain (`LocalRequest` of
`src/requests/local.js` is not among the sources).  The DELETE request that
`push` issues against the sync pathname with a query atomically removes the
matching records and resolves with them; the non-matching rows stay.  The
first component is the drained set, the second the remaining journal. -/
def drainJournal (journal : List SyncRecord) (q : SyncRecord → Bool) :
    List SyncRecord × List SyncRecord :=
  (journal.filter q, journal.filter (fun s => !(q s)))

/-- Modelled from the spec: reinstatement (`LocalRequest` is not among the
sources).  The PUT that `push` issues against the sync pathname with the
failed sync entities bulk-upserts them, preserving their `key`s. -/
def reinstateJournal (rest failed : List SyncRecord) : List SyncRecord :=
  rest ++ failed

/-- Everything `push` produces: the per-record results it resolves with, the
journal contents after reinstatement, and the local-store writes and remote
requests performed along the way. -/
structure PushOutcome where
  results : List SyncResult
  journal : List SyncRecord
  localOps : List LocalOp
  remoteReqs : List RemoteReq
deriving DecidableEq, Repr

/-- `Sync.push(query)` (sync.js lines 280-545).  `net` gives the outcome of
the primary remote call for each record and `repairO` the outcome of its
repair GET; both are deterministic oracles, which suffices because each
record is dispatched at most once.  The source processes the coalesced list
in sequential batches of 100 (`batchSize`), running the records of a batch
concurrently and concatenating the batch results; since the per-record step
is independent of every other record, that concatenation is the elementwise
map, which is embedded directly. -/
def push (journal : List SyncRecord) (q : SyncRecord → Bool)
    (net repairO : SyncRecord → RemoteResult) : PushOutcome :=
  let drained := (drainJournal journal q).1
  let rest := (drainJournal journal q).2
  match drained with
  | [] => ⟨[], rest, [], []⟩
  | d :: ds =>
    let steps := (coalesce (d :: ds)).map (fun r => syncOne r (net r) (repairO r))
    { results := steps.map (fun s => s.result)
      journal := reinstateJournal rest (steps.filterMap (fun s => s.reinstated))
      localOps := (steps.map (fun s => s.localOps)).flatten
      remoteReqs := (steps.map (fun s => s.remoteReqs)).flatten }

/-! ## The local data collections

An association-list store keyed by (collection, id), enough to state what
the push pipeline's local writes leave behind. -/

/-- A row key of the local data layer: collection name and document id (the
id is the URL's trailing segment, `none` when the document had no `_id`). -/
abbrev StoreKey := String × Option String

/-- The local data collections as an association list. -/
abbrev DataStore := List (StoreKey × Entity)

/-- First binding of a key, if any. -/
def storeFind (k : StoreKey) : DataStore → Option Entity
  | [] => none
  | (k2, v) :: t => if k2 = k then some v else storeFind k t

/-- Remove every binding of a key. -/
def storeRemove (k : StoreKey) : DataStore → DataStore
  | [] => []
  | (k2, v) :: t => if k2 = k then storeRemove k t else (k2, v) :: storeRemove k t

/-- Apply one local operation: `put` upserts, `del` removes. -/
def applyOp (s : DataStore) : LocalOp → DataStore
  | LocalOp.put c i doc => ((c, i), doc) :: storeRemove (c, i) s
  | LocalOp.del c i => storeRemove (c, i) s

/-- Apply the local operations of a push run, oldest first. -/
def applyOps (s : DataStore) (ops : List LocalOp) : DataStore :=
  ops.foldl applyOp s

/-! ## Enqueue (`createSaveOperation` / `createDeleteOperation`)

Both functions first throw a `SyncError` when no collection name was
provided, then walk the entities: a missing entity is skipped, an entity
whose `_id` is falsy raises a `SyncError`, and otherwise the sync-key
counter is incremented and a sync record persisted.  The counter increment
runs synchronously before the first await of each callback, so keys are
assigned in list order; the embedding threads the counter through a fold.
On a rejection the source may already have persisted records for other
entities of the same call; the claims under verification do not touch that
case, and the embedding returns the first error with no record list. -/

/-- The two ways enqueueing throws a `SyncError`. -/
inductive SyncErrorKind where
  | missingCollection
  | missingId
deriving DecidableEq, Repr

/-- Truthiness of `entity._id` (`!id` in the source): absent or empty is
falsy. -/
def idTruthy (e : Entity) : Bool :=
  match e._id with
  | some s => !(s = "")
  | none => false

/-- Walk the entities of one enqueue call; `k` is the current value of the
persisted sync-key counter.  Returns the created records and the final
counter value. -/
def enqueueEntities (method : HttpMethod) (collection : String) :
    List (Option Entity) → Nat → Except SyncErrorKind (List SyncRecord × Nat)
  | [], k => Except.ok ([], k)
  | none :: rest, k => enqueueEntities method collection rest k
  | some e :: rest, k =>
    match e._id with
    | none => Except.error SyncErrorKind.missingId
    | some s =>
      if s = "" then
        Except.error SyncErrorKind.missingId
      else
        match enqueueEntities method collection rest (k + 1) with
        | Except.error err => Except.error err
        | Except.ok (rs, k2) =>
          Except.ok (⟨k + 1, s, collection, method, e⟩ :: rs, k2)

/-- `Sync.createSaveOperation` (sync.js lines 102-170): enqueue with
`state.method = POST`.  A falsy collection name throws before anything is
written. -/
def createSaveOperation (collection : String) (entities : List (Option Entity))
    (k : Nat) : Except SyncErrorKind (List SyncRecord × Nat) :=
  if collection = "" then
    Except.error SyncErrorKind.missingCollection
  else
    enqueueEntities HttpMethod.POST collection entities k

/-- `Sync.createDeleteOperation` (sync.js lines 193-261): enqueue with
`state.method = DELETE`.  A falsy collection name throws before anything is
written. -/
def createDeleteOperation (collection : String) (entities : List (Option Entity))
    (k : Nat) : Except SyncErrorKind (List SyncRecord × Nat) :=
  if collection = "" then
    Except.error SyncErrorKind.missingCollection
  else
    enqueueEntities HttpMethod.DELETE collection entities k

/-! ## Store-name validation (the `Store` constructor)

`validCollectionRegex = /^[a-zA-Z0-9\-]{1,128}/` — note the missing `$`
anchor: `test` succeeds as soon as the string starts with at least one
character of the class; later characters and the total length are never
examined. -/

/-- A character of the class `[a-zA-Z0-9-]`. -/
def validNameChar (c : Char) : Bool :=
  c.isUpper || c.isLower || c.isDigit || c = '-'

/-- `validCollectionRegex.test(s)` for `/^[a-zA-Z0-9\-]{1,128}/`: with no
end anchor the regex matches iff some prefix of 1 to 128 class characters
exists, i.e. iff the run of class characters at the start of the string has
length at least one. -/
def validCollectionRegexTest (s : String) : Bool :=
  decide (1 ≤ (s.data.takeWhile validNameChar).length)

/-- The `Store` constructor's name validation (part_000 lines 24-32): it
throws a `KinveyError` unless both the database name and the collection
name pass `validCollectionRegex.test`. -/
def storeNamesAccepted (name collection : String) : Bool :=
  validCollectionRegexTest name && validCollectionRegexTest collection

/-- The spec's words, for comparison: a name matches `^[A-Za-z0-9-]{1,128}$`
iff it is 1 to 128 characters long and every character is a letter, digit
or dash. -/
def specNamePattern (s : String) : Bool :=
  decide (1 ≤ s.length) && decide (s.length ≤ 128) && s.data.all validNameChar

/-! ## WebSQL helpers (placeholder substitution and `clearAll`)

`execute(dbName, tableName, sqlQueries, write)` runs each query after
`sqlQuery.replace('#{table}', escapedTableName)`; JavaScript's
`String.prototype.replace` with a string pattern replaces the first
occurrence only. -/

/-- Replace the first occurrence of `pat` in `s` by `rep` (JavaScript
`String.prototype.replace` with a string pattern); the string is unchanged
when the pattern does not occur. -/
def replaceFirst (pat rep : List Char) : List Char → List Char
  | [] => []
  | c :: rest =>
    if pat.isPrefixOf (c :: rest) then
      rep ++ (c :: rest).drop pat.length
    else
      c :: replaceFirst pat rep rest

/-- The substitution `execute` applies to every SQL query before running it:
`sqlQuery.replace('#\x7btable\x7d', escapedTableName)` (part_000 line 208). -/
def substituteTable (sqlQuery escapedTableName : String) : String :=
  String.mk (replaceFirst "#\x7btable\x7d".data escapedTableName.data sqlQuery.data)

/-- The escaped table name that `execute` substitutes for the placeholder:
the table name wrapped in double quotes (part_000 line 186). -/
def escapeTableName (t : String) : String :=
  "\"" ++ t ++ "\""

/-- `MASTER_TABLE_NAME` (part_000 line 182). -/
def MASTER_TABLE_NAME : String := "sqlite_master"

/-- The SQL query `clearAll` uses to list the tables of the database
(part_000 line 288) — its placeholder is spelled `#\x7bcollection\x7d`,
not `#\x7btable\x7d`. -/
def clearAllListTablesSql : String :=
  "SELECT name AS value FROM #\x7bcollection\x7d WHERE type = ?"

/-- The query `find` runs against a data table (part_000 line 258), used to
check the substitution machinery against a query that spells the
placeholder `#\x7btable\x7d`. -/
def findSql : String := "SELECT value FROM #\x7btable\x7d"

/-! ## Concrete inputs used by evaluation theorems and witnesses -/

/-- A server-known entity with id `e`. -/
def entE : Entity := ⟨some "e", none, 0⟩

/-- A pending DELETE for `entE`. -/
def recDelE : SyncRecord := ⟨1, "e", "books", HttpMethod.DELETE, entE⟩

/-- A locally created entity (truthy `_kmd.local`). -/
def entLoc : Entity := ⟨some "local_x", some true, 0⟩

/-- A pending DELETE for the locally created `entLoc`. -/
def recDelLoc : SyncRecord := ⟨1, "local_x", "books", HttpMethod.DELETE, entLoc⟩

/-- A server-known entity with id `c`. -/
def entC : Entity := ⟨some "c", none, 1⟩

/-- A pending update for `entC`. -/
def recPutC : SyncRecord := ⟨4, "c", "books", HttpMethod.PUT, entC⟩

/-- A locally created entity with device id `local_ab` (scenario S2). -/
def entLocalAb : Entity := ⟨some "local_ab", some true, 2⟩

/-- A pending create for `entLocalAb`. -/
def recPostLocalAb : SyncRecord := ⟨7, "local_ab", "books", HttpMethod.POST, entLocalAb⟩

/-- The document the remote returns for the create of `entLocalAb`
(server-assigned id `srv7`). -/
def respSrv7 : Entity := ⟨some "srv7", none, 2⟩

/-- The document a repair GET returns for entity `c`. -/
def repairedDoc : Entity := ⟨some "c", none, 9⟩

/-- An entity with no `_id`. -/
def entNoId : Entity := ⟨none, none, 5⟩

/-- Entities `A` and `B` and three interleaved journal rows for them. -/
def entA : Entity := ⟨some "A", none, 0⟩

/-- Entity `B`. -/
def entB : Entity := ⟨some "B", none, 0⟩

/-- Mutation of `A` at key 1. -/
def recA1 : SyncRecord := ⟨1, "A", "books", HttpMethod.POST, entA⟩

/-- Mutation of `B` at key 2. -/
def recB2 : SyncRecord := ⟨2, "B", "books", HttpMethod.POST, entB⟩

/-- Mutation of `A` again at key 3. -/
def recA3 : SyncRecord := ⟨3, "A", "books", HttpMethod.POST, entA⟩

/-- The all-matching query. -/
def qAll : SyncRecord → Bool := fun _ => true

/-- A remote that answers every call with `InsufficientCredentialsError`. -/
def netICE : SyncRecord → RemoteResult :=
  fun _ => RemoteResult.err ErrKind.insufficientCredentials

/-- A remote that answers every call with `NotFoundError`. -/
def netNF : SyncRecord → RemoteResult := fun _ => RemoteResult.err ErrKind.notFound

/-- A remote that answers every call with a non-404, non-403 error. -/
def netOther : SyncRecord → RemoteResult := fun _ => RemoteResult.err ErrKind.other

/-- A repair oracle whose GET also fails. -/
def repairFail : SyncRecord → RemoteResult := fun _ => RemoteResult.err ErrKind.other

/-! ## Theorems -/

/-- Looking a key up after removing it finds nothing. -/
theorem storeFind_storeRemove_self (k : StoreKey) (s : DataStore) :
    storeFind k (storeRemove k s) = none := by
  induction s with
  | nil => rfl
  | cons p t ih =>
    obtain ⟨k2, v⟩ := p
    by_cases h : k2 = k
    · simp [storeRemove, h, ih]
    · simp [storeRemove, storeFind, h, ih]

/-- Removing one key leaves lookups of any other key unchanged. -/
theorem storeFind_storeRemove_ne (k2 k : StoreKey) (h : k2 ≠ k) (s : DataStore) :
    storeFind k2 (storeRemove k s) = storeFind k2 s := by
  induction s with
  | nil => rfl
  | cons p t ih =>
    obtain ⟨k3, v⟩ := p
    by_cases h3 : k3 = k
    · subst h3
      simp [storeRemove, storeFind, Ne.symm h, ih]
    · by_cases h4 : k3 = k2
      · simp [storeRemove, storeFind, h3, h4, h]
      · simp [storeRemove, storeFind, h3, h4, ih]

/-- A dispatched record failing with an error that is neither NotFound nor
InsufficientCredentials is put on the failed list, with its key, entityId,
collection and method intact (only the entity snapshot may have been
stripped in place). -/
theorem syncOne_err_other_reinstated (r : SyncRecord) (rep : RemoteResult)
    (hm : r.method ≠ HttpMethod.GET) :
    ∃ r2, (syncOne r (RemoteResult.err ErrKind.other) rep).reinstated = some r2 ∧
      r2.key = r.key ∧ r2.entityId = r.entityId ∧ r2.collection = r.collection ∧
      r2.method = r.method := by
  cases hM : r.method with
  | GET => exact absurd hM hm
  | DELETE =>
    refine ⟨r, ?_, rfl, rfl, rfl, hM⟩
    simp [syncOne, hM]
  | POST =>
    refine ⟨{ r with entity := if metadataIsLocal r.entity then stripLocal r.entity
      else r.entity }, ?_, rfl, rfl, rfl, ?_⟩
    · cases hloc : metadataIsLocal r.entity <;> simp [syncOne, hM, hloc]
    · simp [hM]
  | PUT =>
    refine ⟨{ r with entity := if metadataIsLocal r.entity then stripLocal r.entity
      else r.entity }, ?_, rfl, rfl, rfl, ?_⟩
    · cases hloc : metadataIsLocal r.entity <;> simp [syncOne, hM, hloc]
    · simp [hM]

/-- An enqueue call one of whose provided entities has a falsy id rejects
with a SyncError, whatever the counter value. -/
theorem enqueueEntities_error_of_bad_id (method : HttpMethod) (collection : String)
    (l : List (Option Entity)) (e : Entity) (he : some e ∈ l) (hid : idTruthy e = false) :
    ∀ k, ∃ err, enqueueEntities method collection l k = Except.error err := by
  induction l with
  | nil => cases he
  | cons x rest ih =>
    intro k
    rcases List.mem_cons.mp he with hx | hmem
    · subst hx
      cases hI : e._id with
      | none => exact ⟨SyncErrorKind.missingId, by simp [enqueueEntities, hI]⟩
      | some s =>
        have hs : s = "" := by
          simp [idTruthy, hI] at hid
          exact hid
        exact ⟨SyncErrorKind.missingId, by simp [enqueueEntities, hI, hs]⟩
    · cases x with
      | none =>
        obtain ⟨err, herr⟩ := ih hmem k
        exact ⟨err, by simp [enqueueEntities, herr]⟩
      | some e1 =>
        cases hI : e1._id with
        | none => exact ⟨SyncErrorKind.missingId, by simp [enqueueEntities, hI]⟩
        | some s =>
          by_cases hs : s = ""
          · exact ⟨SyncErrorKind.missingId, by simp [enqueueEntities, hI, hs]⟩
          · obtain ⟨err, herr⟩ := ih hmem (k + 1)
            exact ⟨err, by simp [enqueueEntities, hI, hs, herr]⟩

/-- Claim C1: the spec says a record whose remote dispatch fails with
InsufficientCredentialsError is never reinstated and its result carries the
error.  Evaluation at the failing input: for a DELETE record the
predicate of sync.js line 339 is vacuously true, so the record IS reinstated
into the journal (first conjunct), while the result does carry the error
(second conjunct). -/
theorem claim1_delete_insufficient_credentials_reinstated :
    (push [recDelE] qAll netICE repairFail).journal = [recDelE] ∧
    (push [recDelE] qAll netICE repairFail).results =
      [⟨some "e", entE, some (PushError.remote ErrKind.insufficientCredentials)⟩] := by
  decide

/-- Claim C2: the spec says NotFoundError on a DELETE is treated as success,
with no error in the result and no reinstatement.  Evaluation at the failing
input: the catch handler runs, the result carries the NotFoundError, and the
always-true predicate of sync.js line 339 reinstates the record. -/
theorem claim2_delete_not_found_not_success :
    (push [recDelE] qAll netNF repairFail).results =
      [⟨some "e", entE, some (PushError.remote ErrKind.notFound)⟩] ∧
    (push [recDelE] qAll netNF repairFail).journal = [recDelE] := by
  decide

/-- Claim C3 counterexample: a DELETE record whose entity is local-marked
fails with InsufficientCredentialsError, and push DOES issue a repair GET
for it (the DELETE branch of the dispatcher has no isLocal guard),
contradicting the claim that no repair GET is issued for a local-marked
entity. -/
theorem claim3_counterexample_local_delete_repair_get :
    metadataIsLocal recDelLoc.entity = true ∧
    (push [recDelLoc] qAll netICE repairFail).remoteReqs =
      [⟨HttpMethod.DELETE, "books", some "local_x", none⟩,
       ⟨HttpMethod.GET, "books", some "local_x", none⟩] := by
  decide

/-- Claim C6: the spec says count returns the number of distinct entityIds
of the matching records.  Evaluation at the failing input: with records for
entity A at keys 1 and 3 and for entity B at key 2, the key-descending order
interleaves A, B, A, the adjacent-only deduplication of sortedUniqBy keeps
all three, and count returns 3 although only 2 entityIds are distinct —
contradicting the code's own comment that at most one operation per unique
entity remains. -/
theorem claim6_count_overcounts_interleaved_entities :
    countPending [recA1, recB2, recA3] qAll = 3 ∧
    ([recA1, recB2, recA3].map (fun r => r.entityId)).dedup.length = 2 := by
  decide

set_option maxRecDepth 4000 in
/-- Claim C8: the spec says a name is rejected exactly when it fails to
match the anchored pattern of 1 to 128 letters, digits or dashes.
Evaluation at the failing inputs: the source regex has no end anchor, so the
name a! (which contains an invalid character) and a 129-character name both
pass the code's test — and Store construction accepts them — although the
spec's pattern rejects both. -/
theorem claim8_validation_regex_unanchored :
    validCollectionRegexTest "a!" = true ∧
    specNamePattern "a!" = false ∧
    storeNamesAccepted "a!" "data" = true ∧
    validCollectionRegexTest (String.mk (List.replicate 129 'a')) = true ∧
    specNamePattern (String.mk (List.replicate 129 'a')) = false := by
  decide

/-- Claim C9: the spec says clearAll drops every user table.  Evaluation at
the failing input: the SQL with which clearAll lists the tables spells its
placeholder as collection while execute substitutes only the spelling
table, so the substitution leaves the query unchanged (first conjunct), the
text actually executed is not the intended master-table query (second
conjunct) — the listing therefore fails against WebSQL and no user table is
ever dropped — although the same substitution works for a correctly spelled
query (third conjunct). -/
theorem claim9_clearall_placeholder_never_substituted :
    substituteTable clearAllListTablesSql (escapeTableName MASTER_TABLE_NAME) =
      clearAllListTablesSql ∧
    clearAllListTablesSql ≠ "SELECT name AS value FROM \"sqlite_master\" WHERE type = ?" ∧
    substituteTable findSql (escapeTableName MASTER_TABLE_NAME) =
      "SELECT value FROM \"sqlite_master\"" := by
  decide

/-- Claim C3 (amended): when a remote dispatch fails with
InsufficientCredentialsError, the local-marked skip applies only to
CREATE_OR_UPDATE records: for those, a local-marked entity gets no repair
GET, while a server-known entity gets a repair GET whose successful response
overwrites the local row; for DELETE records the repair GET is issued
regardless of the local mark.  In every repaired case a failing repair
performs no local write and the result still carries only the original
credentials error (repair errors are swallowed). -/
theorem claim3_repair_scope_amended (r : SyncRecord) (repairResult : RemoteResult) :
    ((r.method = HttpMethod.POST ∨ r.method = HttpMethod.PUT) →
      metadataIsLocal r.entity = true →
      (syncOne r (RemoteResult.err ErrKind.insufficientCredentials) repairResult).remoteReqs.all
        (fun rq => rq.method ≠ HttpMethod.GET) = true) ∧
    (((r.method = HttpMethod.POST ∨ r.method = HttpMethod.PUT) ∧
        metadataIsLocal r.entity = false) ∨ r.method = HttpMethod.DELETE →
      (syncOne r (RemoteResult.err ErrKind.insufficientCredentials) repairResult).remoteReqs.any
        (fun rq => rq.method = HttpMethod.GET) = true ∧
      (∀ doc, repairResult = RemoteResult.ok doc →
        (syncOne r (RemoteResult.err ErrKind.insufficientCredentials) repairResult).localOps =
          [LocalOp.put r.collection r.entity._id doc]) ∧
      (∀ e2, repairResult = RemoteResult.err e2 →
        (syncOne r (RemoteResult.err ErrKind.insufficientCredentials) repairResult).localOps =
          []) ∧
      (syncOne r (RemoteResult.err ErrKind.insufficientCredentials) repairResult).result.error =
        some (PushError.remote ErrKind.insufficientCredentials)) := by
  constructor
  · rintro (hp | hp) hloc <;> cases repairResult <;> simp [syncOne, hp, hloc]
  · rintro (⟨hp | hp, hloc⟩ | hp)
    · cases repairResult <;> simp [syncOne, hp, hloc]
    · cases repairResult <;> simp [syncOne, hp, hloc]
    · cases repairResult <;> simp [syncOne, hp]

/-- Witness for claim C3: a server-known update record failing with
InsufficientCredentialsError does get a repair GET. -/
theorem claim3_repair_scope_amended_witness :
    (syncOne recPutC (RemoteResult.err ErrKind.insufficientCredentials)
        (RemoteResult.ok repairedDoc)).remoteReqs.any
      (fun rq => rq.method = HttpMethod.GET) = true :=
  ((claim3_repair_scope_amended recPutC (RemoteResult.ok repairedDoc)).2
    (Or.inl ⟨Or.inr rfl, by decide⟩)).1

/-- Claim C4: every dispatched record whose remote call fails with an error
that is neither NotFoundError nor InsufficientCredentialsError is reinstated
into the journal: after push the journal contains a record with the same
key, entityId, collection and method. -/
theorem claim4_other_failures_reinstated (journal : List SyncRecord) (q : SyncRecord → Bool)
    (net repairO : SyncRecord → RemoteResult) (r : SyncRecord)
    (hr : r ∈ coalesce (journal.filter q))
    (hm : r.method ≠ HttpMethod.GET)
    (hnet : net r = RemoteResult.err ErrKind.other) :
    ∃ r2, r2 ∈ (push journal q net repairO).journal ∧ r2.key = r.key ∧
      r2.entityId = r.entityId ∧ r2.collection = r.collection ∧ r2.method = r.method := by
  cases hfe : journal.filter q with
  | nil =>
    rw [hfe] at hr
    simp [coalesce, orderByKeyDesc, sortedUniqByEntityId] at hr
  | cons d ds =>
    rw [hfe] at hr
    obtain ⟨r2, hsome, hk, he2, hc, hM⟩ := syncOne_err_other_reinstated r (repairO r) hm
    refine ⟨r2, ?_, hk, he2, hc, hM⟩
    simp only [push, drainJournal, hfe, reinstateJournal, List.mem_append]
    right
    rw [List.mem_filterMap]
    refine ⟨syncOne r (net r) (repairO r), List.mem_map_of_mem _ hr, ?_⟩
    rw [hnet]
    exact hsome

/-- Witness for claim C4: a concrete update record failing with a plain
network error is back in the journal after push, with its key 4. -/
theorem claim4_other_failures_reinstated_witness :
    ∃ r2, r2 ∈ (push [recPutC] qAll netOther repairFail).journal ∧
      r2.key = recPutC.key ∧ r2.entityId = recPutC.entityId ∧
      r2.collection = recPutC.collection ∧ r2.method = recPutC.method :=
  claim4_other_failures_reinstated [recPutC] qAll netOther repairFail recPutC
    (by decide) (by decide) rfl

/-- Claim C5: pushing a CREATE_OR_UPDATE record whose entity is local-marked
with device id lid sends one remote POST whose body is the entity with its
id removed and its local mark cleared; on remote success with
server-assigned id sid, the local collection holds the returned doc under
sid and no row under lid, the per-record result carries the original lid and
no error, and the record is not reinstated. -/
theorem claim5_local_create_push (r : SyncRecord) (respDoc : Entity) (store : DataStore)
    (lid sid : String) (repairResult : RemoteResult)
    (hm : r.method = HttpMethod.POST ∨ r.method = HttpMethod.PUT)
    (hloc : metadataIsLocal r.entity = true)
    (hid : r.entity._id = some lid)
    (hrespId : respDoc._id = some sid)
    (hne : sid ≠ lid) :
    (syncOne r (RemoteResult.ok respDoc) repairResult).remoteReqs =
      [⟨HttpMethod.POST, r.collection, none, some (stripLocal r.entity)⟩] ∧
    (stripLocal r.entity)._id = none ∧
    metadataIsLocal (stripLocal r.entity) = false ∧
    storeFind (r.collection, some sid)
      (applyOps store (syncOne r (RemoteResult.ok respDoc) repairResult).localOps) =
        some respDoc ∧
    storeFind (r.collection, some lid)
      (applyOps store (syncOne r (RemoteResult.ok respDoc) repairResult).localOps) = none ∧
    (syncOne r (RemoteResult.ok respDoc) repairResult).result._id = some lid ∧
    (syncOne r (RemoteResult.ok respDoc) repairResult).result.entity = respDoc ∧
    (syncOne r (RemoteResult.ok respDoc) repairResult).result.error = none ∧
    (syncOne r (RemoteResult.ok respDoc) repairResult).reinstated = none := by
  have hstrip : metadataIsLocal (stripLocal r.entity) = false := by
    cases hk : r.entity.kmd <;> simp [stripLocal, metadataIsLocal, hk]
  have hops : (syncOne r (RemoteResult.ok respDoc) repairResult).localOps =
      [LocalOp.put r.collection (some sid) respDoc,
       LocalOp.del r.collection (some lid)] := by
    cases hm with
    | inl hp => simp [syncOne, hp, hloc, hid, hrespId]
    | inr hp => simp [syncOne, hp, hloc, hid, hrespId]
  have hkeyne : ((r.collection, some sid) : StoreKey) ≠ (r.collection, some lid) := by
    simp [hne]
  have hfound : storeFind (r.collection, some sid)
      (applyOps store (syncOne r (RemoteResult.ok respDoc) repairResult).localOps) =
        some respDoc := by
    rw [hops]
    simp only [applyOps, List.foldl, applyOp]
    rw [storeFind_storeRemove_ne _ _ hkeyne]
    simp [storeFind]
  have hgone : storeFind (r.collection, some lid)
      (applyOps store (syncOne r (RemoteResult.ok respDoc) repairResult).localOps) = none := by
    rw [hops]
    simp only [applyOps, List.foldl, applyOp]
    exact storeFind_storeRemove_self _ _
  refine ⟨?_, by simp [stripLocal], hstrip, hfound, hgone, ?_, ?_, ?_, ?_⟩ <;>
    cases hm with
    | inl hp => simp [syncOne, hp, hloc, hid, hrespId]
    | inr hp => simp [syncOne, hp, hloc, hid, hrespId]

/-- Witness for claim C5: scenario S2 — the local collection ends with a row
under srv7 holding the returned doc and no row under local_ab. -/
theorem claim5_local_create_push_witness :
    storeFind ("books", some "srv7")
      (applyOps [] (syncOne recPostLocalAb (RemoteResult.ok respSrv7)
        (RemoteResult.err ErrKind.other)).localOps) = some respSrv7 ∧
    storeFind ("books", some "local_ab")
      (applyOps [] (syncOne recPostLocalAb (RemoteResult.ok respSrv7)
        (RemoteResult.err ErrKind.other)).localOps) = none :=
  ⟨(claim5_local_create_push recPostLocalAb respSrv7 [] "local_ab" "srv7"
      (RemoteResult.err ErrKind.other) (Or.inl rfl) (by decide) (by decide) (by decide)
      (by decide)).2.2.2.1,
   (claim5_local_create_push recPostLocalAb respSrv7 [] "local_ab" "srv7"
      (RemoteResult.err ErrKind.other) (Or.inl rfl) (by decide) (by decide) (by decide)
      (by decide)).2.2.2.2.1⟩

/-- Claim C7: both enqueue operations throw a SyncError when a provided
non-null entity has a falsy id, and throw a SyncError when the collection
name is missing; in the missing-collection case the throw happens before
anything is processed, so no sync record is produced. -/
theorem claim7_enqueue_validation (collection : String) (entities : List (Option Entity))
    (k : Nat) :
    (collection = "" →
      createSaveOperation collection entities k =
        Except.error SyncErrorKind.missingCollection ∧
      createDeleteOperation collection entities k =
        Except.error SyncErrorKind.missingCollection) ∧
    (∀ e, some e ∈ entities → idTruthy e = false →
      (∃ err, createSaveOperation collection entities k = Except.error err) ∧
      (∃ err2, createDeleteOperation collection entities k = Except.error err2)) := by
  constructor
  · intro hc
    simp [createSaveOperation, createDeleteOperation, hc]
  · intro e he hid
    by_cases hc : collection = ""
    · exact ⟨⟨SyncErrorKind.missingCollection, by simp [createSaveOperation, hc]⟩,
        ⟨SyncErrorKind.missingCollection, by simp [createDeleteOperation, hc]⟩⟩
    · obtain ⟨err, herr⟩ :=
        enqueueEntities_error_of_bad_id HttpMethod.POST collection entities e he hid k
      obtain ⟨err2, herr2⟩ :=
        enqueueEntities_error_of_bad_id HttpMethod.DELETE collection entities e he hid k
      exact ⟨⟨err, by simp [createSaveOperation, hc, herr]⟩,
        ⟨err2, by simp [createDeleteOperation, hc, herr2]⟩⟩

/-- Witness for claim C7: a missing collection name and an entity without
an id both reject. -/
theorem claim7_enqueue_validation_witness :
    createSaveOperation "" [some entE] 0 = Except.error SyncErrorKind.missingCollection ∧
    (∃ err, createSaveOperation "books" [some entNoId] 0 = Except.error err) :=
  ⟨((claim7_enqueue_validation "" [some entE] 0).1 rfl).1,
    ((claim7_enqueue_validation "books" [some entNoId] 0).2 entNoId (by decide)
      (by decide)).1⟩

/-- Claim C10: for a local-marked CREATE_OR_UPDATE record the strip of _id
and of the _kmd local mark happens in place before the POST is dispatched
(the POST body is the stripped entity), so when the POST fails with a
non-credentials error both the reinstated sync record and the error-bearing
result carry the stripped entity, while the result id is still the original
one captured before the strip. -/
theorem claim10_strip_in_place_propagates (r : SyncRecord) (repairResult : RemoteResult)
    (e : ErrKind)
    (hm : r.method = HttpMethod.POST ∨ r.method = HttpMethod.PUT)
    (hloc : metadataIsLocal r.entity = true)
    (he : e ≠ ErrKind.insufficientCredentials) :
    (syncOne r (RemoteResult.err e) repairResult).remoteReqs =
      [⟨HttpMethod.POST, r.collection, none, some (stripLocal r.entity)⟩] ∧
    (syncOne r (RemoteResult.err e) repairResult).reinstated =
      some { r with entity := stripLocal r.entity } ∧
    (syncOne r (RemoteResult.err e) repairResult).result.entity = stripLocal r.entity ∧
    (syncOne r (RemoteResult.err e) repairResult).result._id = r.entity._id ∧
    (stripLocal r.entity)._id = none ∧
    metadataIsLocal (stripLocal r.entity) = false ∧
    (syncOne r (RemoteResult.err e) repairResult).result.error =
      some (PushError.remote e) := by
  have hstrip : metadataIsLocal (stripLocal r.entity) = false := by
    cases hk : r.entity.kmd <;> simp [stripLocal, metadataIsLocal, hk]
  cases hm with
  | inl hp =>
    cases e <;> simp_all [syncOne, stripLocal]
  | inr hp =>
    cases e <;> simp_all [syncOne, stripLocal]

/-- Witness for claim C10: the reinstated record for the failed POST of the
local_ab entity carries the stripped snapshot. -/
theorem claim10_strip_in_place_propagates_witness :
    (syncOne recPostLocalAb (RemoteResult.err ErrKind.other)
        (RemoteResult.err ErrKind.other)).reinstated =
      some { recPostLocalAb with entity := stripLocal entLocalAb } :=
  (claim10_strip_in_place_propagates recPostLocalAb (RemoteResult.err ErrKind.other)
    ErrKind.other (Or.inl rfl) (by decide) (by decide)).2.1

end JsSdk
